import Mathlib

/-!
Shallow embedding of the SBOM validation and unification engine of
`backends/python` (`converters/sbom_utils.py`, `converters/sbom_validator.py`,
`converters/sbom_unifier.py`), together with theorems settling the claims
about it.

JSON objects are embedded as structures whose fields are `Option`-valued:
`none` models an absent key, `some ""` a key that is present with an empty
string.  Python truthiness of an optional string (`if not x:`) is the test
`x.getD "" = ""`.  Machine integers do not occur; the GOST rank lives in
`Int` because the source uses `-1` as the "absent" rank.
-/

namespace Sbom

inductive Level where
  | error
  | warning
  | info
deriving DecidableEq, Repr

/-- Embedding of `ValidationIssue` from `models/sbom.py`. -/
structure ValidationIssue where
  level : Level
  message : String
  path : Option String
deriving DecidableEq, Repr

/-- One entry of the `properties` array of a component: a JSON object whose
`name` / `value` keys may each be absent. -/
structure PropertyKV where
  name? : Option String
  value? : Option String
deriving DecidableEq, Repr

/-- One entry of the `externalReferences` array of a component. -/
structure ExternalReference where
  type? : Option String
  url? : Option String
deriving DecidableEq, Repr

/-- A CycloneDX component: a JSON object with the keys the engine reads.
Components nest through the `components` key, so the type is a tree. -/
inductive Component where
  | mk (type? name? version? group? bomRef? : Option String)
       (properties : List PropertyKV)
       (externalReferences : List ExternalReference)
       (components : List Component)

def Component.type? : Component → Option String
  | .mk t _ _ _ _ _ _ _ => t

def Component.name? : Component → Option String
  | .mk _ n _ _ _ _ _ _ => n

def Component.version? : Component → Option String
  | .mk _ _ v _ _ _ _ _ => v

def Component.group? : Component → Option String
  | .mk _ _ _ g _ _ _ _ => g

def Component.bomRef? : Component → Option String
  | .mk _ _ _ _ b _ _ _ => b

def Component.properties : Component → List PropertyKV
  | .mk _ _ _ _ _ ps _ _ => ps

def Component.externalReferences : Component → List ExternalReference
  | .mk _ _ _ _ _ _ es _ => es

def Component.components : Component → List Component
  | .mk _ _ _ _ _ _ _ cs => cs

/-- A `dependencies` entry.  Original entries are copied through verbatim by
the unifier; the synthetic top-level entry has a `ref` and a `dependsOn`. -/
structure Dependency where
  ref? : Option String
  dependsOn : List String
deriving DecidableEq, Repr

/-- The `metadata` object, with the keys the engine reads. -/
structure Metadata where
  timestamp? : Option String
  component? : Option Component

/-- A parsed SBOM document, with the top-level keys the engine reads.
`hasVulnerabilitiesKey` models the membership test
`"vulnerabilities" in document` (the value itself is never read). -/
structure Document where
  bomFormat? : Option String
  specVersion? : Option String
  metadata? : Option Metadata
  components? : Option (List Component)
  dependencies? : Option (List Dependency)
  hasVulnerabilitiesKey : Bool

/-- Python truthiness of an optional string: `None` and `""` are falsy. -/
def strTruthy (x : Option String) : Bool :=
  x.getD "" != ""

/-- Python `x or y` for an optional string `x` and a string `y`:
yields `y` when `x` is absent or empty. -/
def pyOrStr (x : Option String) (y : String) : String :=
  match x with
  | none => y
  | some s => if s = "" then y else s

/-- Rendering of an optional string inside a Python f-string:
`None` prints as `"None"`. -/
def pyShow : Option String → String
  | none => "None"
  | some s => s

/-- ASCII lowercasing of one character; models `str.lower` from Python for
the ASCII values the GOST vocabulary and hostnames use. -/
def lowerChar (c : Char) : Char :=
  if 'A' ≤ c ∧ c ≤ 'Z' then Char.ofNat (c.toNat + 32) else c

/-- ASCII lowercasing of a string (model of Python `str.lower`). -/
def pyLower (s : String) : String :=
  ⟨s.data.map lowerChar⟩

/-- Embedding of `GOST_PREFIX = "cdx:gost:"` from `sbom_utils.py`. -/
def GOST_NS : String := "cdx:gost:"

/-- Scan of a `properties` array: first entry whose `name` equals
`prop_name` yields its `value` (which may itself be absent). -/
def get_prop_list : List PropertyKV → String → Option String
  | [], _ => none
  | p :: rest, prop_name =>
    if p.name? = some prop_name then p.value? else get_prop_list rest prop_name

/-- Embedding of `get_prop` from `sbom_utils.py`. -/
def get_prop (component : Component) (prop_name : String) : Option String :=
  get_prop_list component.properties prop_name

/-- Embedding of `get_gost_prop` from `sbom_utils.py`. -/
def get_gost_prop (component : Component) (gost_name : String) : Option String :=
  get_prop component (GOST_NS ++ gost_name)

/-- Embedding of the dictionary lookup on GOST_HIERARCHY, which maps
`"yes"` to 2, `"indirect"` to 1 and `"no"` to 0. -/
def GOST_HIERARCHY (s : String) : Option Int :=
  if s = "yes" then some 2
  else if s = "indirect" then some 1
  else if s = "no" then some 0
  else none

/-- Embedding of `eval_prop` from `sbom_utils.py`: rank of a GOST value,
`-1` for absent or unrecognized values. -/
def eval_prop : Option String → Int
  | none => -1
  | some v => (GOST_HIERARCHY (pyLower v)).getD (-1)

/-- Node count of a component forest (used as a termination measure and as
the specification of the flattened length). -/
def sizeList : List Component → Nat
  | [] => 0
  | .mk _ _ _ _ _ _ _ cs :: rest => 1 + sizeList cs + sizeList rest

/-- Structural flattening of a component forest: every node of every tree,
parent before its subtree, left to right. -/
def subtreeList : List Component → List Component
  | [] => []
  | c@(.mk _ _ _ _ _ _ _ cs) :: rest => c :: (subtreeList cs ++ subtreeList rest)

theorem sizeList_cons (c : Component) (rest : List Component) :
    sizeList (c :: rest) = 1 + sizeList c.components + sizeList rest := by
  cases c
  simp [sizeList, Component.components]

theorem sizeList_append : ∀ a b : List Component,
    sizeList (a ++ b) = sizeList a + sizeList b
  | [], b => by simp [sizeList]
  | .mk t n v g r ps es cs :: rest, b => by
    simp [sizeList, sizeList_append rest b]
    omega

theorem subtreeList_append : ∀ a b : List Component,
    subtreeList (a ++ b) = subtreeList a ++ subtreeList b
  | [], b => by simp [subtreeList]
  | .mk t n v g r ps es cs :: rest, b => by
    simp [subtreeList, subtreeList_append rest b]

theorem subtreeList_length : ∀ comps : List Component,
    (subtreeList comps).length = sizeList comps
  | [] => by simp [subtreeList, sizeList]
  | .mk t n v g r ps es cs :: rest => by
    simp [subtreeList, sizeList, subtreeList_length cs, subtreeList_length rest]
    omega

/-- The `while stack:` loop of `flatten_components` in `sbom_utils.py`:
pop from the end of the stack, append the node to the result, push its
children. -/
def flattenLoop (stack result : List Component) : List Component :=
  match h : stack with
  | [] => result
  | c :: rest =>
    let comp := (c :: rest).getLast (by simp)
    flattenLoop ((c :: rest).dropLast ++ comp.components) (result ++ [comp])
termination_by sizeList stack
decreasing_by
  have hsplit : sizeList (c :: rest) =
      sizeList ((c :: rest).dropLast) + sizeList [(c :: rest).getLast (by simp)] := by
    rw [← sizeList_append, List.dropLast_append_getLast]
  have hlast : sizeList [(c :: rest).getLast (by simp)] =
      1 + sizeList ((c :: rest).getLast (by simp)).components := by
    rw [sizeList_cons]
    simp [sizeList]
  simp only [sizeList_append, h]
  omega

/-- Embedding of `flatten_components` from `sbom_utils.py`. -/
def flatten_components (components : List Component) : List Component :=
  flattenLoop components []

theorem flattenLoop_perm : ∀ stack result : List Component,
    List.Perm (flattenLoop stack result) (result ++ subtreeList stack)
  | [], result => by simp [flattenLoop, subtreeList]
  | c :: rest, result => by
    have hne : c :: rest ≠ [] := by simp
    have hsplit : (c :: rest).dropLast ++ [(c :: rest).getLast hne] = c :: rest :=
      List.dropLast_append_getLast hne
    have hlt : sizeList ((c :: rest).dropLast ++ ((c :: rest).getLast hne).components) <
        sizeList (c :: rest) := by
      conv_rhs => rw [← hsplit]
      rw [sizeList_append, sizeList_append, sizeList_cons]
      simp only [sizeList]
      omega
    have ih := flattenLoop_perm
      ((c :: rest).dropLast ++ ((c :: rest).getLast hne).components)
      (result ++ [(c :: rest).getLast hne])
    rw [flattenLoop]
    refine List.Perm.trans ih ?_
    have hsub : subtreeList (c :: rest) =
        subtreeList ((c :: rest).dropLast) ++
          ((c :: rest).getLast hne :: subtreeList ((c :: rest).getLast hne).components) := by
      conv_lhs => rw [← hsplit]
      rw [subtreeList_append]
      congr 1
      cases hc : (c :: rest).getLast hne
      simp [subtreeList, Component.components]
    rw [hsub, subtreeList_append]
    have hA : List.Perm
        ((c :: rest).getLast hne ::
          (subtreeList ((c :: rest).dropLast) ++
            subtreeList ((c :: rest).getLast hne).components))
        (subtreeList ((c :: rest).dropLast) ++
          ((c :: rest).getLast hne :: subtreeList ((c :: rest).getLast hne).components)) :=
      List.perm_middle.symm
    have hB := List.Perm.append_left result hA
    simpa using hB
termination_by stack _ => sizeList stack
decreasing_by
  exact hlt

theorem flatten_components_perm (components : List Component) :
    List.Perm (flatten_components components) (subtreeList components) := by
  simpa [flatten_components] using flattenLoop_perm components []

theorem flatten_components_length (components : List Component) :
    (flatten_components components).length = sizeList components := by
  rw [(flatten_components_perm components).length_eq, subtreeList_length]

/-- The JSONPath step `f"{base_path}[{i}]"` used by the recursive checks. -/
def idxPath (base_path : String) (i : Nat) : String :=
  base_path ++ "[" ++ toString i ++ "]"

/-- Embedding of `_validate_structure` from `sbom_validator.py`.  A `metadata` value that
is an empty dictionary is falsy in Python and is modelled as `none`. -/
def _validate_structure (document : Document) : List ValidationIssue :=
  (if document.bomFormat? = some "CycloneDX" then []
   else
     [⟨Level.error,
       "bomFormat должен быть \"CycloneDX\", получено: \"" ++
         pyShow document.bomFormat? ++ "\"",
       some "$.bomFormat"⟩])
  ++ (if strTruthy document.specVersion? = false then
        [⟨Level.error, "specVersion обязателен", some "$.specVersion"⟩]
      else if document.specVersion? = some "1.4" ∨ document.specVersion? = some "1.5" ∨
          document.specVersion? = some "1.6" then []
      else
        [⟨Level.warning,
          "specVersion " ++ pyShow document.specVersion? ++
            " может не поддерживаться полностью",
          some "$.specVersion"⟩])
  ++ (if document.components?.isNone && !document.hasVulnerabilitiesKey then
        [⟨Level.warning, "Документ не содержит ни components, ни vulnerabilities", some "$"⟩]
      else [])
  ++ (match document.metadata? with
      | none => [⟨Level.warning, "Отсутствует секция metadata", some "$.metadata"⟩]
      | some metadata =>
        if strTruthy metadata.timestamp? = false then
          [⟨Level.warning, "Отсутствует timestamp в metadata", some "$.metadata.timestamp"⟩]
        else [])

/-- The `valid_types` set of `_validate_components`. -/
def valid_types : List String :=
  ["application", "framework", "library", "container", "platform", "operating-system",
   "device", "device-driver", "firmware", "file", "machine-learning-model", "data"]

/-- Embedding of `_validate_components` from `sbom_validator.py`; the extra `Nat` argument
is the running index of the Python `enumerate`. -/
def _validate_components : List Component → String → Nat → List ValidationIssue
  | [], _, _ => []
  | comp@(.mk _ _ _ _ _ _ _ cs) :: rest, base_path, i =>
    (if strTruthy comp.type? = false then
       [⟨Level.error, "Компонент должен иметь тип (type)", some (idxPath base_path i)⟩]
     else [])
    ++ (if strTruthy comp.name? = false then
          [⟨Level.error, "Компонент должен иметь имя (name)", some (idxPath base_path i)⟩]
        else [])
    ++ (if comp.type?.getD "" ≠ "" ∧ comp.type?.getD "" ∉ valid_types then
          [⟨Level.warning, "Неизвестный тип компонента: \"" ++ comp.type?.getD "" ++ "\"",
            some (idxPath base_path i ++ ".type")⟩]
        else [])
    ++ (if !cs.isEmpty then _validate_components cs (idxPath base_path i ++ ".components") 0 else [])
    ++ _validate_components rest base_path (i + 1)
termination_by comps _ _ => sizeList comps
decreasing_by
  all_goals simp only [sizeList]
  all_goals omega

/-- The f-string of the GOST hierarchy error. -/
def hierarchyMsg (label child_name : String) (child_val : Option String)
    (parent_name : String) (parent_val : Option String) : String :=
  label ++ " дочернего компонента \"" ++ child_name ++ "\" (" ++ pyShow child_val ++
    ") превышает родительский \"" ++ parent_name ++ "\" (" ++ pyShow parent_val ++ ")"

/-- Inner `for j, child in enumerate(children)` loop of `check_hierarchy`
(`_validate_gost_hierarchy`), for one parent and one GOST property. -/
def childViolationLoop (parent : Component) (parent_val : Option String) (parent_level : Int)
    (label prop_name path : String) : List Component → Nat → List ValidationIssue
  | [], _ => []
  | child :: children, j =>
    (if eval_prop (get_gost_prop child prop_name) > parent_level ∧ parent_level ≥ 0 then
       [⟨Level.error,
         hierarchyMsg label (child.name?.getD "?") (get_gost_prop child prop_name)
           (parent.name?.getD "?") parent_val,
         some (path ++ ".components[" ++ toString j ++ "]")⟩]
     else [])
    ++ childViolationLoop parent parent_val parent_level label prop_name path children (j + 1)

/-- Embedding of `check_hierarchy` from `_validate_gost_hierarchy`: nodes without children
are skipped (which also skips recursion into their — empty — child list). -/
def check_hierarchy : List Component → String → Nat → List ValidationIssue
  | [], _, _ => []
  | comp@(.mk _ _ _ _ _ _ _ cs) :: rest, base_path, i =>
    (if cs.isEmpty then []
     else
       childViolationLoop comp (get_gost_prop comp "attack_surface")
           (eval_prop (get_gost_prop comp "attack_surface"))
           "GOST:attack_surface" "attack_surface" (idxPath base_path i) cs 0
       ++ childViolationLoop comp (get_gost_prop comp "security_function")
           (eval_prop (get_gost_prop comp "security_function"))
           "GOST:security_function" "security_function" (idxPath base_path i) cs 0
       ++ check_hierarchy cs (idxPath base_path i ++ ".components") 0)
    ++ check_hierarchy rest base_path (i + 1)
termination_by comps _ _ => sizeList comps
decreasing_by
  all_goals simp only [sizeList]
  all_goals omega

/-- Embedding of `_validate_gost_hierarchy` from `sbom_validator.py`. -/
def _validate_gost_hierarchy (document : Document) : List ValidationIssue :=
  check_hierarchy (document.components?.getD []) "$.components" 0

/-- Message of the "missing GOST field" warning of `check_missing`. -/
def missingFieldMsg (field comp_name : String) : String :=
  "Отсутствует GOST:" ++ field ++ " у компонента \"" ++ comp_name ++ "\""

/-- Message of the "declared but empty GOST field" warning of `check_missing`. -/
def emptyFieldMsg (field comp_name : String) : String :=
  "GOST:" ++ field ++ " не заполнен у компонента \"" ++ comp_name ++ "\""

/-- Embedding of `check_gost_presence` from `_validate_gost_fields`. -/
def check_gost_presence : List Component → Bool
  | [] => false
  | comp@(.mk _ _ _ _ _ _ _ cs) :: rest =>
    if (get_gost_prop comp "attack_surface").isSome then true
    else if (get_gost_prop comp "security_function").isSome then true
    else if (!cs.isEmpty) && check_gost_presence cs then true
    else check_gost_presence rest
termination_by comps => sizeList comps
decreasing_by
  all_goals simp only [sizeList]
  all_goals omega

/-- The `if as_val is None / elif as_val == ""` block of `check_missing`,
for one component and one of the two GOST fields. -/
def fieldIssues (comp : Component) (field path : String) : List ValidationIssue :=
  match get_gost_prop comp field with
  | none => [⟨Level.warning, missingFieldMsg field (comp.name?.getD "?"), some path⟩]
  | some v =>
    if v = "" then [⟨Level.warning, emptyFieldMsg field (comp.name?.getD "?"), some path⟩]
    else []

/-- Embedding of `check_missing` from `_validate_gost_fields`. -/
def check_missing : List Component → String → Nat → List ValidationIssue
  | [], _, _ => []
  | comp@(.mk _ _ _ _ _ _ _ cs) :: rest, base_path, i =>
    fieldIssues comp "attack_surface" (idxPath base_path i)
    ++ fieldIssues comp "security_function" (idxPath base_path i)
    ++ (if !cs.isEmpty then check_missing cs (idxPath base_path i ++ ".components") 0 else [])
    ++ check_missing rest base_path (i + 1)
termination_by comps _ _ => sizeList comps
decreasing_by
  all_goals simp only [sizeList]
  all_goals omega

/-- Embedding of `_validate_gost_fields` from `sbom_validator.py`. -/
def _validate_gost_fields (document : Document) : List ValidationIssue :=
  if check_gost_presence (document.components?.getD []) then
    check_missing (document.components?.getD []) "$.components" 0
  else []

/-- Message of the "missing VCS reference" warning of `check_vcs`. -/
def vcsWarnMsg (comp_name : String) : String :=
  "Компонент \x27" ++ comp_name ++
    "\x27: Отсутствует ссылка на VCS (система контроля версий). Добавьте externalReferences с type=\x27vcs\x27."

/-- Embedding of the scan for an external reference whose type is `"vcs"`. -/
def hasVcsRef (comp : Component) : Bool :=
  comp.externalReferences.any (fun r => r.type? == some "vcs")

/-- Embedding of `check_vcs` from `_validate_vcs_references`.  The `continue` for
`operating-system` / `framework` nodes also skips the recursion into their
children. -/
def check_vcs : List Component → String → Nat → List ValidationIssue
  | [], _, _ => []
  | comp@(.mk _ _ _ _ _ _ _ cs) :: rest, base_path, i =>
    (if comp.type?.getD "" = "operating-system" ∨ comp.type?.getD "" = "framework" then []
     else
       (if hasVcsRef comp = false ∧
           (comp.type?.getD "" = "application" ∨ comp.type?.getD "" = "library") then
          [⟨Level.warning, vcsWarnMsg (comp.name?.getD "?"), some (idxPath base_path i)⟩]
        else [])
       ++ (if !cs.isEmpty then check_vcs cs (idxPath base_path i ++ ".components") 0 else []))
    ++ check_vcs rest base_path (i + 1)
termination_by comps _ _ => sizeList comps
decreasing_by
  all_goals simp only [sizeList]
  all_goals omega

/-- Embedding of `_validate_vcs_references` from `sbom_validator.py`. -/
def _validate_vcs_references (document : Document) : List ValidationIssue :=
  check_vcs (document.components?.getD []) "$.components" 0

/-- Embedding of `ValidateResponse` from `models/sbom.py`. -/
structure ValidateResponse where
  valid : Bool
  issues : List ValidationIssue
  schema_version : Option String
deriving DecidableEq, Repr

/-- Embedding of `validate_sbom` from `sbom_validator.py`.  The `format` argument is
accepted but never read by the source either. -/
def validate_sbom (document : Document) (format : String) : ValidateResponse :=
  let issues :=
    _validate_structure document
    ++ (if !(document.components?.getD []).isEmpty then
          _validate_components (document.components?.getD []) "$.components" 0
        else [])
    ++ _validate_gost_hierarchy document
    ++ _validate_gost_fields document
    ++ _validate_vcs_references document
  ⟨!(issues.any (fun issue => issue.level == Level.error)), issues, document.specVersion?⟩

/-- The `max_level / max_value` loop of `_aggregate_gost` in `sbom_unifier.py`. -/
def aggLoop : List Component → String → Int → Option String → Option String
  | [], _, _, max_value => max_value
  | comp :: rest, prop_name, max_level, max_value =>
    if eval_prop (get_gost_prop comp prop_name) > max_level then
      aggLoop rest prop_name (eval_prop (get_gost_prop comp prop_name))
        (get_gost_prop comp prop_name)
    else aggLoop rest prop_name max_level max_value

/-- Embedding of `_aggregate_gost` from `sbom_unifier.py`. -/
def _aggregate_gost (components : List Component) (prop_name : String) : Option String :=
  aggLoop components prop_name (-1) none

/-- The update loop of `_set_gost_prop`: overwrite the first entry with the
composed name, else append a fresh entry. -/
def setGostPropLoop : List PropertyKV → String → String → List PropertyKV
  | [], full_name, value => [⟨some full_name, some value⟩]
  | p :: rest, full_name, value =>
    if p.name? = some full_name then ⟨p.name?, some value⟩ :: rest
    else p :: setGostPropLoop rest full_name value

/-- Embedding of `_set_gost_prop` from `sbom_unifier.py`: absent value is a no-op. -/
def _set_gost_prop (properties : List PropertyKV) (prop_name : String) :
    Option String → List PropertyKV
  | none => properties
  | some value => setGostPropLoop properties (GOST_NS ++ prop_name) value

/-- A JSON object with no keys (the `{}` defaults of `unify_sboms`). -/
def emptyComponent : Component :=
  .mk none none none none none [] [] []

/-- Embedding of the metadata component lookup of one input document
(with an empty-object default); kept as an
`Option` so that the Python truthiness test `if meta_component` (an empty
dictionary is falsy) can be modelled. -/
def metaComponent? (doc : Document) : Option Component :=
  (doc.metadata?.getD ⟨none, none⟩).component?

/-- The `provided_by` / `source_langs` copy-through:
`get_gost_prop(meta_component, prop_name) if meta_component else None`,
applied only when the value is truthy. -/
def copyMetaGost (mc : Option Component) (properties : List PropertyKV)
    (prop_name : String) : List PropertyKV :=
  let val := match mc with
    | none => none
    | some c => get_gost_prop c prop_name
  if strTruthy val then _set_gost_prop properties prop_name val else properties

/-- The wrapper component that `unify_sboms` builds for one input document
(the per-document half of its main loop). -/
def mkWrapper (doc : Document) : Component :=
  let components := doc.components?.getD []
  let mc := metaComponent? doc
  let comp_name := (mc.getD emptyComponent).name?.getD "Unknown"
  let comp_version := (mc.getD emptyComponent).version?.getD ""
  let comp_group := (mc.getD emptyComponent).group?
  let bom_ref := pyOrStr ((mc.getD emptyComponent).bomRef?)
    ("unified-" ++ comp_name ++ "-" ++ comp_version)
  let flat := flatten_components components
  let properties :=
    _set_gost_prop
      (_set_gost_prop [] "attack_surface" (_aggregate_gost flat "attack_surface"))
      "security_function" (_aggregate_gost flat "security_function")
  let properties := copyMetaGost mc (copyMetaGost mc properties "provided_by") "source_langs"
  Component.mk (some "application") (some comp_name)
    (if comp_version = "" then none else some comp_version)
    (match comp_group with
     | none => none
     | some g => if g = "" then none else some g)
    (some bom_ref) properties [] components

/-- The `metadata` object of the unified BOM. -/
structure UnifiedMetadata where
  timestamp : String
  component : Component
  manufacturer? : Option String

/-- The unified BOM that `unify_sboms` assembles.  `dependencies? = none`
models a BOM without a `dependencies` key. -/
structure UnifiedBom where
  bomFormat : String
  specVersion : String
  serialNumber : String
  version : Nat
  metadata : UnifiedMetadata
  components : List Component
  dependencies? : Option (List Dependency)

/-- Embedding of `UnifyResponse` from `models/sbom.py`. -/
structure UnifyResponse where
  bom : UnifiedBom
  components_count : Nat
  sources_count : Nat

/-- Embedding of `unify_sboms` from `sbom_unifier.py`.  The wall-clock timestamp and the
random UUID are impure; they enter the embedding as the `now` and
`serial` parameters (`serialNumber` is `"urn:uuid:" ++ serial`). -/
def unify_sboms (documents : List Document)
    (app_name app_version manufacturer now serial : String) : UnifyResponse :=
  let unified_components := documents.map mkWrapper
  let all_dependencies := (documents.map (fun d => d.dependencies?.getD [])).flatten
  let total_flat_count :=
    (documents.map (fun d => (flatten_components (d.components?.getD [])).length)).sum
  let app_bom_ref := "unified-" ++ app_name ++ "-" ++ app_version
  let bom : UnifiedBom :=
    ⟨"CycloneDX", "1.6", "urn:uuid:" ++ serial, 1,
      ⟨now,
        Component.mk (some "application") (some app_name) (some app_version) none
          (some app_bom_ref) [] [] [],
        if manufacturer = "" then none else some manufacturer⟩,
      unified_components,
      if all_dependencies.isEmpty then none
      else some (⟨some app_bom_ref,
        unified_components.map (fun c => c.bomRef?.getD "")⟩ :: all_dependencies)⟩
  ⟨bom, total_flat_count + unified_components.length, documents.length⟩

/-! `_is_safe_url` depends on three pieces of the Python standard library:
`urllib.parse.urlparse`, `ipaddress.ip_address` and a `\d{1,3}`-quad regular
expression.  They are modelled below at the fidelity the rule needs:
scheme and hostname extraction for `scheme://[user@]host[:port]/...` URLs
(scheme and hostname lowercased, brackets stripped from IPv6 hosts), exact
IPv4 dotted-quad form (decimal octets `0..255`, no leading zeros), and
IPv6 `:`/`::` group form (IPv4-embedded tails are not modelled). -/

/-- Split a character list at the first occurrence of `sep`. -/
def splitAtFirst (sep : Char) : List Char → Option (List Char × List Char)
  | [] => none
  | c :: rest =>
    if c = sep then some ([], rest)
    else
      match splitAtFirst sep rest with
      | none => none
      | some (pre, post) => some (c :: pre, post)

/-- Full split of a character list on `sep` (model of `str.split(sep)`). -/
def splitOnChar (sep : Char) : List Char → List (List Char)
  | [] => [[]]
  | c :: rest =>
    if c = sep then [] :: splitOnChar sep rest
    else
      match splitOnChar sep rest with
      | [] => [[c]]
      | h :: t => (c :: h) :: t

/-- Characters `urlparse` accepts inside a scheme. -/
def isSchemeChar (c : Char) : Bool :=
  c.isAlpha || c.isDigit || c == '+' || c == '-' || c == '.'

/-- Scheme extraction of `urlparse`: the part before the first `:` when it
is a well-formed scheme (lowercased), else the empty scheme. -/
def schemeSplit (url : List Char) : String × List Char :=
  match splitAtFirst ':' url with
  | none => ("", url)
  | some (pre, post) =>
    match pre with
    | [] => ("", url)
    | c0 :: _ =>
      if c0.isAlpha && pre.all isSchemeChar then (⟨pre.map lowerChar⟩, post)
      else ("", url)

/-- The `netloc` of `urlparse`: present only after a leading `//`, and runs
up to the next `/`, `?` or `#`. -/
def netlocOf (rest : List Char) : List Char :=
  match rest with
  | '/' :: '/' :: r => r.takeWhile (fun c => !(c == '/' || c == '?' || c == '#'))
  | _ => []

/-- The `hostname` of a netloc: text after the last `@`, with a leading
bracketed IPv6 literal unwrapped, otherwise cut at the port `:`; lowercased.
An absent hostname is modelled as `""` (falsy, matching the source check
`if not hostname`). -/
def hostnameOf (netloc : List Char) : String :=
  let hostinfo := (netloc.reverse.takeWhile (fun c => !(c == '@'))).reverse
  match hostinfo with
  | '[' :: r => ⟨(r.takeWhile (fun c => !(c == ']'))).map lowerChar⟩
  | _ => ⟨(hostinfo.takeWhile (fun c => !(c == ':'))).map lowerChar⟩

/-- Embedding of `urlparse(url).scheme`. -/
def urlScheme (url : String) : String :=
  (schemeSplit url.data).1

/-- Embedding of `urlparse(url).hostname`, with `None` modelled as `""`. -/
def urlHostname (url : String) : String :=
  hostnameOf (netlocOf (schemeSplit url.data).2)

/-- Numeric value of a decimal digit string. -/
def decValue (l : List Char) : Nat :=
  l.foldl (fun a c => a * 10 + (c.toNat - '0'.toNat)) 0

/-- One IPv4 octet as `ipaddress` accepts it: 1–3 decimal digits, value at
most 255, no leading zero. -/
def isIpv4Octet (l : List Char) : Bool :=
  !l.isEmpty && l.length ≤ 3 && l.all (·.isDigit) && decValue l ≤ 255 &&
    (l == ['0'] || l.head? != some '0')

/-- The `ipaddress.IPv4Address` dotted-quad form. -/
def isIPv4 (s : String) : Bool :=
  match splitOnChar '.' s.data with
  | [a, b, c, d] => isIpv4Octet a && isIpv4Octet b && isIpv4Octet c && isIpv4Octet d
  | _ => false

/-- One 16-bit IPv6 group: 1–4 hex digits. -/
def isHexGroup (l : List Char) : Bool :=
  !l.isEmpty && l.length ≤ 4 &&
    l.all (fun c => c.isDigit || ('a' ≤ c && c ≤ 'f') || ('A' ≤ c && c ≤ 'F'))

/-- Split at the first `::`, if any. -/
def splitOnDoubleColon : List Char → Option (List Char × List Char)
  | [] => none
  | ':' :: ':' :: rest => some ([], rest)
  | c :: rest =>
    match splitOnDoubleColon rest with
    | none => none
    | some (pre, post) => some (c :: pre, post)

/-- The `ipaddress.IPv6Address` group form (without IPv4-embedded tails). -/
def isIPv6 (s : String) : Bool :=
  match splitOnDoubleColon s.data with
  | none =>
    let gs := splitOnChar ':' s.data
    gs.length == 8 && gs.all isHexGroup
  | some (pre, post) =>
    (splitOnDoubleColon post).isNone &&
      (let gpre := if pre.isEmpty then [] else splitOnChar ':' pre
       let gpost := if post.isEmpty then [] else splitOnChar ':' post
       gpre.length + gpost.length ≤ 7 && gpre.all isHexGroup && gpost.all isHexGroup)

/-- Embedding of `ipaddress.ip_address` succeeds: the text is an IPv4 or IPv6 literal. -/
def isIpLiteral (s : String) : Bool :=
  isIPv4 s || isIPv6 s

/-- The defense-in-depth regex `^(\d{1,3}\.){3}\d{1,3}$`. -/
def isDottedQuad (s : String) : Bool :=
  match splitOnChar '.' s.data with
  | [a, b, c, d] =>
    (!a.isEmpty && a.length ≤ 3 && a.all (·.isDigit)) &&
    (!b.isEmpty && b.length ≤ 3 && b.all (·.isDigit)) &&
    (!c.isEmpty && c.length ≤ 3 && c.all (·.isDigit)) &&
    (!d.isEmpty && d.length ≤ 3 && d.all (·.isDigit))
  | _ => false

/-- Embedding of `_is_safe_url` from `sbom_validator.py`.  In the source both branches
of the `ip_address` success path return `False` (private and public IP
literals alike), so that path collapses to a single rejection here. -/
def _is_safe_url (url : String) : Bool :=
  if urlScheme url ≠ "https" then false
  else if urlHostname url = "" then false
  else if urlHostname url = "localhost" ∨ urlHostname url = "127.0.0.1" ∨
      urlHostname url = "0.0.0.0" ∨ urlHostname url = "::1" then false
  else if isIpLiteral (urlHostname url) then false
  else if isDottedQuad (urlHostname url) then false
  else true

/-! Helper lemmas. -/

theorem eval_prop_ge_neg_one (v : Option String) : -1 ≤ eval_prop v := by
  cases v with
  | none => simp [eval_prop]
  | some s =>
    simp only [eval_prop, GOST_HIERARCHY]
    split_ifs <;> simp

theorem eval_prop_le_two (v : Option String) : eval_prop v ≤ 2 := by
  cases v with
  | none => simp [eval_prop]
  | some s =>
    simp only [eval_prop, GOST_HIERARCHY]
    split_ifs <;> simp

theorem eval_prop_none_eq (v : Option String) (h : v = none) : eval_prop v = -1 := by
  subst h; rfl

theorem eval_prop_pos_ne_none (v : Option String) (h : 0 ≤ eval_prop v) : v ≠ none := by
  intro hv
  subst hv
  simp [eval_prop] at h

theorem le_foldl_max_init : ∀ (l : List Int) (b : Int), b ≤ l.foldl max b
  | [], _ => le_refl _
  | x :: xs, b => le_trans (le_max_left b x) (le_foldl_max_init xs (max b x))

theorem le_foldl_max_mem : ∀ (l : List Int) (b x : Int), x ∈ l → x ≤ l.foldl max b
  | y :: xs, b, x, h => by
    rcases List.mem_cons.mp h with h1 | h2
    · subst h1
      exact le_trans (le_max_right b x) (le_foldl_max_init xs _)
    · exact le_foldl_max_mem xs _ x h2

theorem foldl_max_le : ∀ (l : List Int) (b M : Int), b ≤ M → (∀ x ∈ l, x ≤ M) →
    l.foldl max b ≤ M
  | [], _, _, hb, _ => hb
  | x :: xs, b, M, hb, hall => by
    refine foldl_max_le xs _ M (max_le hb (hall x (by simp))) ?_
    intro y hy
    exact hall y (by simp [hy])

/-- Invariant of the `_aggregate_gost` loop: the running value always has
the running rank, and the final rank is the running maximum. -/
theorem aggLoop_rank : ∀ (comps : List Component) (p : String) (m : Int) (v : Option String),
    eval_prop v = m →
    eval_prop (aggLoop comps p m v) =
      (comps.map (fun c => eval_prop (get_gost_prop c p))).foldl max m
  | [], _, _, _, h => by simpa [aggLoop] using h
  | c :: rest, p, m, v, h => by
    rw [aggLoop]
    by_cases hc : eval_prop (get_gost_prop c p) > m
    · rw [if_pos hc, aggLoop_rank rest p _ _ rfl]
      simp only [List.map_cons, List.foldl_cons]
      rw [max_eq_right (le_of_lt hc)]
    · rw [if_neg hc, aggLoop_rank rest p m v h]
      simp only [List.map_cons, List.foldl_cons]
      rw [max_eq_left (not_lt.mp hc)]

/-- The `_aggregate_gost` loop yields `None` exactly when the running value
is `None` and no element beats the running maximum. -/
theorem aggLoop_none : ∀ (comps : List Component) (p : String) (m : Int) (v : Option String),
    eval_prop v = m →
    (aggLoop comps p m v = none ↔
      v = none ∧ ∀ c ∈ comps, eval_prop (get_gost_prop c p) ≤ m)
  | [], _, _, v, _ => by simp [aggLoop]
  | c :: rest, p, m, v, h => by
    rw [aggLoop]
    by_cases hc : eval_prop (get_gost_prop c p) > m
    · rw [if_pos hc, aggLoop_none rest p _ _ rfl]
      have hge : 0 ≤ eval_prop (get_gost_prop c p) := by
        have := eval_prop_ge_neg_one v
        omega
      have hne := eval_prop_pos_ne_none _ hge
      constructor
      · rintro ⟨hnone, -⟩
        exact absurd hnone hne
      · rintro ⟨-, hall⟩
        have := hall c (by simp)
        omega
    · rw [if_neg hc, aggLoop_none rest p m v h]
      have hle : eval_prop (get_gost_prop c p) ≤ m := not_lt.mp hc
      simp [List.forall_mem_cons, hle]

/-- The maximum GOST rank attained anywhere in a component forest. -/
def maxTreeRank (comps : List Component) (prop_name : String) : Int :=
  ((subtreeList comps).map (fun c => eval_prop (get_gost_prop c prop_name))).foldl max (-1)

/-! Claim theorems. -/

/-- Claim C1: for every input document, `validate_sbom` returns
`valid = true` iff the produced issue list contains no issue with level
`error`; warning- and info-level issues never affect the `valid` flag. -/
theorem validate_valid_iff_no_error (document : Document) (format : String) :
    (validate_sbom document format).valid = true ↔
      ∀ issue ∈ (validate_sbom document format).issues, issue.level ≠ Level.error := by
  simp only [validate_sbom]
  simp only [List.any_eq_false, Bool.not_eq_true', List.mem_append, beq_iff_eq]

/-- Claim C5: over the flattened component tree, `_aggregate_gost` returns a
value whose rank is the maximum rank attained by any node, returns absent
exactly when no node has rank `≥ 0`, and returns a rank-2 value whenever any
node anywhere declares `"yes"` in any casing. -/
theorem aggregate_max_rank (comps : List Component) (prop_name : String) :
    eval_prop (_aggregate_gost (flatten_components comps) prop_name) =
      maxTreeRank comps prop_name ∧
    (_aggregate_gost (flatten_components comps) prop_name = none ↔
      ∀ c ∈ subtreeList comps, eval_prop (get_gost_prop c prop_name) < 0) ∧
    ((∃ c ∈ subtreeList comps, ∃ v, get_gost_prop c prop_name = some v ∧ pyLower v = "yes") →
      eval_prop (_aggregate_gost (flatten_components comps) prop_name) = 2) := by
  have hperm := flatten_components_perm comps
  have hmap := hperm.map (fun c => eval_prop (get_gost_prop c prop_name))
  have hrank : eval_prop (_aggregate_gost (flatten_components comps) prop_name) =
      maxTreeRank comps prop_name := by
    rw [_aggregate_gost, aggLoop_rank (flatten_components comps) prop_name (-1) none rfl,
      maxTreeRank]
    exact hmap.foldl_eq' (fun x _ y _ z => Max.right_comm z x y) (-1)
  refine ⟨hrank, ?_, ?_⟩
  · rw [_aggregate_gost, aggLoop_none (flatten_components comps) prop_name (-1) none rfl]
    simp only [true_and]
    constructor
    · intro hall c hmem
      have := hall c (hperm.mem_iff.mpr hmem)
      omega
    · intro hall c hmem
      have := hall c (hperm.mem_iff.mp hmem)
      omega
  · rintro ⟨c, hmem, v, hv, hyes⟩
    rw [hrank]
    have hc2 : eval_prop (get_gost_prop c prop_name) = 2 := by
      rw [hv]
      simp [eval_prop, hyes, GOST_HIERARCHY]
    refine le_antisymm ?_ ?_
    · refine foldl_max_le _ _ _ (by omega) ?_
      intro x hx
      rcases List.mem_map.mp hx with ⟨c', -, rfl⟩
      exact eval_prop_le_two _
    · rw [← hc2]
      exact le_foldl_max_mem _ _ _ (List.mem_map.mpr ⟨c, hmem, rfl⟩)

/-- Witness for C5 at a concrete two-node tree whose inner node declares
`"YES"`. -/
theorem aggregate_max_rank_witness :
    eval_prop (_aggregate_gost
      (flatten_components
        [Component.mk (some "library") (some "a")
          none none none [⟨some "cdx:gost:attack_surface", some "no"⟩] []
          [Component.mk (some "library") (some "b")
            none none none [⟨some "cdx:gost:attack_surface", some "YES"⟩] [] []]])
      "attack_surface") = 2 :=
  (aggregate_max_rank
    [Component.mk (some "library") (some "a")
      none none none [⟨some "cdx:gost:attack_surface", some "no"⟩] []
      [Component.mk (some "library") (some "b")
        none none none [⟨some "cdx:gost:attack_surface", some "YES"⟩] [] []]]
    "attack_surface").2.2
    ⟨Component.mk (some "library") (some "b")
        none none none [⟨some "cdx:gost:attack_surface", some "YES"⟩] [] [],
      by simp [subtreeList], "YES", by decide, by decide⟩

/-- The wrapper `bom-ref` as the claim words it: the metadata
component `bom-ref` when present and non-empty, otherwise
`"unified-{name}-{version}"` from the defaulted name and version. -/
def specWrapperRef (doc : Document) : String :=
  match ((metaComponent? doc).getD emptyComponent).bomRef? with
  | some r =>
    if r ≠ "" then r
    else "unified-" ++ (((metaComponent? doc).getD emptyComponent).name?.getD "Unknown") ++
      "-" ++ (((metaComponent? doc).getD emptyComponent).version?.getD "")
  | none =>
    "unified-" ++ (((metaComponent? doc).getD emptyComponent).name?.getD "Unknown") ++
      "-" ++ (((metaComponent? doc).getD emptyComponent).version?.getD "")

theorem mkWrapper_shape (doc : Document) :
    (mkWrapper doc).type? = some "application" ∧
    (mkWrapper doc).bomRef? = some (specWrapperRef doc) := by
  cases hmc : (metaComponent? doc).getD emptyComponent with
  | mk t n v g b ps es cs =>
    constructor
    · simp [mkWrapper, Component.type?]
    · simp only [mkWrapper, specWrapperRef, hmc, Component.bomRef?, Component.name?,
        Component.version?]
      cases b with
      | none => simp [pyOrStr]
      | some r => by_cases hr : r = "" <;> simp [pyOrStr, hr]

/-- Claim C7: the unified BOM has exactly one wrapper per input document, in
input order, each of type `"application"`, whose `bom-ref` is the metadata
component ref of the input when present and non-empty, else the
`"unified-{name}-{version}"` fallback. -/
theorem unify_wrapper_list (documents : List Document)
    (app_name app_version manufacturer now serial : String) :
    (unify_sboms documents app_name app_version manufacturer now serial).bom.components.length =
      documents.length ∧
    (unify_sboms documents app_name app_version manufacturer now serial).bom.components.map
        (fun w => (w.type?, w.bomRef?)) =
      documents.map (fun d => (some "application", some (specWrapperRef d))) := by
  have hcomps :
      (unify_sboms documents app_name app_version manufacturer now serial).bom.components =
        documents.map mkWrapper := by
    simp [unify_sboms]
  constructor
  · simp [hcomps]
  · rw [hcomps, List.map_map]
    refine List.map_congr_left ?_
    intro d _
    simp only [Function.comp]
    rw [(mkWrapper_shape d).1, (mkWrapper_shape d).2]

/-- Claim C8: with at least one non-empty input `dependencies` list, the
unified `dependencies` starts with the synthetic
entry — ref `"unified-<app>-<version>"`, dependsOn listing the wrapper refs in order —
followed by all original entries in input order; with none, the unified BOM
has no `dependencies` key. -/
theorem unify_dependency_synthesis (documents : List Document)
    (app_name app_version manufacturer now serial : String) :
    ((∃ d ∈ documents, d.dependencies?.getD [] ≠ []) →
      (unify_sboms documents app_name app_version manufacturer now serial).bom.dependencies? =
        some (⟨some ("unified-" ++ app_name ++ "-" ++ app_version),
               documents.map specWrapperRef⟩ ::
              (documents.map (fun d => d.dependencies?.getD [])).flatten)) ∧
    ((∀ d ∈ documents, d.dependencies?.getD [] = []) →
      (unify_sboms documents app_name app_version manufacturer now serial).bom.dependencies? =
        none) := by
  have hrefs : (documents.map mkWrapper).map (fun c => c.bomRef?.getD "") =
      documents.map specWrapperRef := by
    rw [List.map_map]
    refine List.map_congr_left ?_
    intro d _
    simp only [Function.comp]
    rw [(mkWrapper_shape d).2]
    rfl
  have hdep :
      (unify_sboms documents app_name app_version manufacturer now serial).bom.dependencies? =
        if ((documents.map (fun d => d.dependencies?.getD [])).flatten).isEmpty then none
        else some (⟨some ("unified-" ++ app_name ++ "-" ++ app_version),
          documents.map specWrapperRef⟩ ::
          (documents.map (fun d => d.dependencies?.getD [])).flatten) := by
    simp only [unify_sboms]
    rw [hrefs]
  constructor
  · intro hex
    have hne : ¬((documents.map (fun d => d.dependencies?.getD [])).flatten).isEmpty = true := by
      simp only [List.isEmpty_iff, List.flatten_eq_nil_iff]
      intro hall
      rcases hex with ⟨d, hd, hned⟩
      exact hned (hall _ (List.mem_map.mpr ⟨d, hd, rfl⟩))
    rw [hdep, if_neg hne]
  · intro hall
    have hemp : ((documents.map (fun d => d.dependencies?.getD [])).flatten).isEmpty = true := by
      simp only [List.isEmpty_iff, List.flatten_eq_nil_iff]
      intro l hl
      rcases List.mem_map.mp hl with ⟨d, hd, rfl⟩
      exact hall d hd
    rw [hdep, if_pos hemp]

/-- A one-document input carrying one dependency entry. -/
def depDoc : Document :=
  ⟨none, none, none, none, some [⟨some "r1", ["r2"]⟩], false⟩

/-- A one-document input with no `dependencies` key. -/
def noDepDoc : Document :=
  ⟨none, none, none, none, none, false⟩

/-- Witness for C8: one call with a dependency-carrying document and one
call with a dependency-free document. -/
theorem unify_dependency_synthesis_witness :
    (unify_sboms [depDoc] "App" "1.0" "" "t" "s").bom.dependencies? =
      some (⟨some ("unified-" ++ "App" ++ "-" ++ "1.0"),
        [depDoc].map specWrapperRef⟩ ::
        ([depDoc].map (fun d => d.dependencies?.getD [])).flatten) ∧
    (unify_sboms [noDepDoc] "App" "1.0" "" "t" "s").bom.dependencies? = none :=
  ⟨(unify_dependency_synthesis [depDoc] "App" "1.0" "" "t" "s").1
      ⟨depDoc, by simp, by simp [depDoc]⟩,
   (unify_dependency_synthesis [noDepDoc] "App" "1.0" "" "t" "s").2
      (by simp [noDepDoc])⟩

/-- Claim C9: `components_count` is the total number of nodes across the
flattened input trees plus one wrapper per input document, and
`sources_count` is the number of input documents. -/
theorem unify_counts (documents : List Document)
    (app_name app_version manufacturer now serial : String) :
    (unify_sboms documents app_name app_version manufacturer now serial).components_count =
      (documents.map (fun d => sizeList (d.components?.getD []))).sum + documents.length ∧
    (unify_sboms documents app_name app_version manufacturer now serial).sources_count =
      documents.length := by
  constructor
  · simp only [unify_sboms, List.length_map]
    congr 1
    refine congrArg List.sum (List.map_congr_left ?_)
    intro d _
    exact flatten_components_length _
  · simp [unify_sboms]

/-- Names of the components the VCS-presence check warns about: type
`application` or `library`, no `vcs` external reference, not nested inside
an `operating-system` / `framework` component. -/
def vcsEligibleNames : List Component → List String
  | [] => []
  | comp@(.mk _ _ _ _ _ _ _ cs) :: rest =>
    if comp.type?.getD "" = "operating-system" ∨ comp.type?.getD "" = "framework" then
      vcsEligibleNames rest
    else
      (if hasVcsRef comp = false ∧
          (comp.type?.getD "" = "application" ∨ comp.type?.getD "" = "library") then
         [comp.name?.getD "?"]
       else [])
      ++ vcsEligibleNames cs ++ vcsEligibleNames rest
termination_by comps => sizeList comps
decreasing_by
  all_goals simp only [sizeList]
  all_goals omega

theorem check_vcs_empty_if (cs : List Component) (p : String) :
    (if !cs.isEmpty then check_vcs cs p 0 else []) = check_vcs cs p 0 := by
  cases cs <;> simp [check_vcs]

theorem check_vcs_map : ∀ (comps : List Component) (base_path : String) (i : Nat),
    (check_vcs comps base_path i).map (fun issue => (issue.level, issue.message)) =
      (vcsEligibleNames comps).map (fun n => (Level.warning, vcsWarnMsg n))
  | [], _, _ => by simp [check_vcs, vcsEligibleNames]
  | .mk t n v g b ps es cs :: rest, base_path, i => by
    simp only [check_vcs, vcsEligibleNames, check_vcs_empty_if]
    by_cases hskip : (Component.mk t n v g b ps es cs).type?.getD "" = "operating-system" ∨
        (Component.mk t n v g b ps es cs).type?.getD "" = "framework"
    · simp only [if_pos hskip, List.nil_append]
      exact check_vcs_map rest base_path (i + 1)
    · simp only [if_neg hskip, List.map_append]
      rw [check_vcs_map cs _ 0, check_vcs_map rest base_path (i + 1)]
      by_cases hemit : hasVcsRef (Component.mk t n v g b ps es cs) = false ∧
          ((Component.mk t n v g b ps es cs).type?.getD "" = "application" ∨
           (Component.mk t n v g b ps es cs).type?.getD "" = "library")
      · simp [if_pos hemit, List.map_append]
      · simp [if_neg hemit, List.map_append]
termination_by comps _ _ => sizeList comps
decreasing_by
  all_goals simp only [sizeList]
  all_goals omega

/-- Claim C2 (amended): the VCS-presence warning is emitted exactly for
components of type `application` or `library` that lack a `vcs` external
reference and are not nested inside an `operating-system` or `framework`
component; every such issue is warning-level and cites the component name,
and all other components — `container`, unknown, or missing types
included — yield no VCS-presence issue. -/
theorem vcs_warning_characterization (document : Document) :
    (_validate_vcs_references document).map (fun issue => (issue.level, issue.message)) =
      (vcsEligibleNames (document.components?.getD [])).map
        (fun n => (Level.warning, vcsWarnMsg n)) :=
  check_vcs_map _ _ _

/-- A `container`-typed component without external references. -/
def containerComp : Component :=
  .mk (some "container") (some "cmp-container") none none none [] [] []

/-- An otherwise fully well-formed document whose only component is
`containerComp`. -/
def containerDoc : Document :=
  ⟨some "CycloneDX", some "1.6", some ⟨some "2024-01-01T00:00:00Z", none⟩,
    some [containerComp], none, false⟩

/-- Claim C2 counterexample: `containerComp` has a non-skipped type
(`container`), no `vcs` reference, yet `validate_sbom` emits no issue at
all — in particular no warning citing its name, contradicting the claim
that the warning applies to every non-skipped type. -/
theorem vcs_unknown_type_counterexample :
    (validate_sbom containerDoc "oss").issues = [] := by
  simp [validate_sbom, containerDoc, containerComp, _validate_structure, _validate_components,
    _validate_gost_hierarchy, _validate_gost_fields, _validate_vcs_references,
    check_hierarchy, check_gost_presence, check_missing, check_vcs,
    strTruthy, valid_types, get_gost_prop, get_prop, get_prop_list,
    Component.type?, Component.name?, Component.properties, Component.components,
    Component.externalReferences, idxPath, hasVcsRef]

/-- Children of `parent` that violate the GOST hierarchy rule for one
property: child rank above parent rank, parent rank recognized. -/
def violatingChildren (parent : Component) (prop_name : String) : Nat :=
  (parent.components.filter (fun child =>
    decide (eval_prop (get_gost_prop child prop_name) >
        eval_prop (get_gost_prop parent prop_name) ∧
      eval_prop (get_gost_prop parent prop_name) ≥ 0))).length

/-- Total number of GOST hierarchy violations in a forest, over both
checked properties. -/
def hierarchyViolationCount (comps : List Component) : Nat :=
  ((subtreeList comps).map
    (fun c => violatingChildren c "attack_surface" + violatingChildren c "security_function")).sum

theorem childViolationLoop_length (parent : Component) (pv : Option String) (pl : Int)
    (label prop_name path : String) :
    ∀ (children : List Component) (j : Nat),
    (childViolationLoop parent pv pl label prop_name path children j).length =
      (children.filter (fun child =>
        decide (eval_prop (get_gost_prop child prop_name) > pl ∧ pl ≥ 0))).length
  | [], _ => by simp [childViolationLoop]
  | child :: children, j => by
    rw [childViolationLoop]
    by_cases hc : eval_prop (get_gost_prop child prop_name) > pl ∧ pl ≥ 0
    · simp [hc, List.filter_cons,
        childViolationLoop_length parent pv pl label prop_name path children (j + 1)]
    · simp [hc, List.filter_cons,
        childViolationLoop_length parent pv pl label prop_name path children (j + 1)]

theorem childViolationLoop_level (parent : Component) (pv : Option String) (pl : Int)
    (label prop_name path : String) :
    ∀ (children : List Component) (j : Nat),
    ∀ issue ∈ childViolationLoop parent pv pl label prop_name path children j,
      issue.level = Level.error
  | [], _ => by simp [childViolationLoop]
  | child :: children, j => by
    rw [childViolationLoop]
    intro issue hmem
    rcases List.mem_append.mp hmem with h | h
    · by_cases hc : eval_prop (get_gost_prop child prop_name) > pl ∧ pl ≥ 0
      · rw [if_pos hc] at h
        simp only [List.mem_singleton] at h
        subst h
        rfl
      · rw [if_neg hc] at h
        simp at h
    · exact childViolationLoop_level parent pv pl label prop_name path children (j + 1) issue h

theorem check_hierarchy_length : ∀ (comps : List Component) (bp : String) (i : Nat),
    (check_hierarchy comps bp i).length = hierarchyViolationCount comps
  | [], _, _ => by simp [check_hierarchy, hierarchyViolationCount, subtreeList]
  | .mk t n v g b ps es cs :: rest, bp, i => by
    have hcs := check_hierarchy_length cs (idxPath bp i ++ ".components") 0
    have hrest := check_hierarchy_length rest bp (i + 1)
    simp only [check_hierarchy]
    simp only [hierarchyViolationCount, subtreeList, List.map_cons, List.map_append,
      List.sum_cons, List.sum_append]
    by_cases hemp : cs.isEmpty
    · have hnil : cs = [] := by simpa [List.isEmpty_iff] using hemp
      subst hnil
      simp [check_hierarchy, hierarchyViolationCount, subtreeList, violatingChildren,
        Component.components, hrest]
    · rw [if_neg (by simpa using hemp)]
      simp only [List.length_append]
      rw [childViolationLoop_length, childViolationLoop_length, hcs, hrest]
      simp only [violatingChildren, Component.components, hierarchyViolationCount]
      omega
termination_by comps _ _ => sizeList comps
decreasing_by
  all_goals simp only [sizeList]
  all_goals omega

theorem check_hierarchy_level : ∀ (comps : List Component) (bp : String) (i : Nat),
    ∀ issue ∈ check_hierarchy comps bp i, issue.level = Level.error
  | [], _, _ => by simp [check_hierarchy]
  | .mk t n v g b ps es cs :: rest, bp, i => by
    intro issue hmem
    simp only [check_hierarchy] at hmem
    rcases List.mem_append.mp hmem with h | h
    · by_cases hemp : cs.isEmpty
      · rw [if_pos hemp] at h
        simp at h
      · rw [if_neg hemp] at h
        rcases List.mem_append.mp h with h2 | h2
        · rcases List.mem_append.mp h2 with h3 | h3
          · exact childViolationLoop_level _ _ _ _ _ _ cs 0 issue h3
          · exact childViolationLoop_level _ _ _ _ _ _ cs 0 issue h3
        · exact check_hierarchy_level cs (idxPath bp i ++ ".components") 0 issue h2
    · exact check_hierarchy_level rest bp (i + 1) issue h
termination_by comps _ _ => sizeList comps
decreasing_by
  all_goals simp only [sizeList]
  all_goals omega

/-- Claim C3: the hierarchy check emits error-level issues only, exactly one
per (parent, property, child) triple where the child rank strictly exceeds a
recognized (rank `≥ 0`) parent rank; a parent of rank `-1` contributes no
violation regardless of its children. -/
theorem gost_hierarchy_errors (document : Document) :
    (∀ issue ∈ _validate_gost_hierarchy document, issue.level = Level.error) ∧
    (_validate_gost_hierarchy document).length =
      hierarchyViolationCount (document.components?.getD []) ∧
    (∀ parent ∈ subtreeList (document.components?.getD []), ∀ prop_name : String,
      eval_prop (get_gost_prop parent prop_name) = -1 →
        violatingChildren parent prop_name = 0) := by
  refine ⟨check_hierarchy_level _ _ _, check_hierarchy_length _ _ _, ?_⟩
  intro parent _ prop_name hrank
  simp [violatingChildren, hrank]

/-- A child declaring `attack_surface = yes`. -/
def hierChild : Component :=
  .mk (some "library") (some "C") none none none
    [⟨some "cdx:gost:attack_surface", some "yes"⟩] [] []

/-- A parent with no GOST properties holding `hierChild`. -/
def hierParent : Component :=
  .mk (some "application") (some "P") none none none [] [] [hierChild]

/-- A document holding only `hierParent`. -/
def hierDoc : Document :=
  ⟨some "CycloneDX", some "1.6", none, some [hierParent], none, false⟩

/-- Witness for C3: the propertyless parent has rank `-1`, so its
`yes`-child produces no violation. -/
theorem gost_hierarchy_errors_witness :
    violatingChildren hierParent "attack_surface" = 0 :=
  (gost_hierarchy_errors hierDoc).2.2 hierParent
    (by simp [hierDoc, hierParent, subtreeList]) "attack_surface" (by decide)

theorem check_gost_presence_empty_and (cs : List Component) :
    ((!cs.isEmpty) && check_gost_presence cs) = check_gost_presence cs := by
  cases cs <;> simp [check_gost_presence]

theorem check_gost_presence_any : ∀ comps : List Component,
    check_gost_presence comps =
      (subtreeList comps).any
        (fun c => (get_gost_prop c "attack_surface").isSome ||
                  (get_gost_prop c "security_function").isSome)
  | [] => by simp [check_gost_presence, subtreeList]
  | .mk t n v g b ps es cs :: rest => by
    have heqn : check_gost_presence (Component.mk t n v g b ps es cs :: rest) =
        (if (get_gost_prop (Component.mk t n v g b ps es cs) "attack_surface").isSome then true
         else if (get_gost_prop (Component.mk t n v g b ps es cs) "security_function").isSome then
           true
         else if check_gost_presence cs then true
         else check_gost_presence rest) := by
      simp only [check_gost_presence]
      rw [check_gost_presence_empty_and]
    rw [heqn, check_gost_presence_any cs, check_gost_presence_any rest]
    simp only [subtreeList, List.any_cons, List.any_append]
    cases h1 : (get_gost_prop (Component.mk t n v g b ps es cs) "attack_surface").isSome <;>
      cases h2 : (get_gost_prop (Component.mk t n v g b ps es cs) "security_function").isSome <;>
      cases h3 : (subtreeList cs).any
        (fun c => (get_gost_prop c "attack_surface").isSome ||
                  (get_gost_prop c "security_function").isSome) <;>
      simp [h1, h2, h3]
termination_by comps => sizeList comps
decreasing_by
  all_goals simp only [sizeList]
  all_goals omega

/-- The warnings one node contributes to the field-completeness check, for
one of the two GOST fields: "missing" when absent, "declared but empty"
when present as the empty string. -/
def fieldWarnPairs (comp : Component) (field : String) : List (Level × String) :=
  match get_gost_prop comp field with
  | none => [(Level.warning, missingFieldMsg field (comp.name?.getD "?"))]
  | some v =>
    if v = "" then [(Level.warning, emptyFieldMsg field (comp.name?.getD "?"))] else []

/-- Both fields' warnings for one node (at most two). -/
def nodeFieldWarnings (comp : Component) : List (Level × String) :=
  fieldWarnPairs comp "attack_surface" ++ fieldWarnPairs comp "security_function"

theorem fieldIssues_map (comp : Component) (field path : String) :
    (fieldIssues comp field path).map (fun issue => (issue.level, issue.message)) =
      fieldWarnPairs comp field := by
  rw [fieldIssues, fieldWarnPairs]
  cases get_gost_prop comp field with
  | none => simp
  | some v => by_cases hv : v = "" <;> simp [hv]

theorem check_missing_empty_if (cs : List Component) (p : String) :
    (if !cs.isEmpty then check_missing cs p 0 else []) = check_missing cs p 0 := by
  cases cs <;> simp [check_missing]

theorem check_missing_map : ∀ (comps : List Component) (bp : String) (i : Nat),
    (check_missing comps bp i).map (fun issue => (issue.level, issue.message)) =
      ((subtreeList comps).map nodeFieldWarnings).flatten
  | [], _, _ => by simp [check_missing, subtreeList]
  | .mk t n v g b ps es cs :: rest, bp, i => by
    simp only [check_missing, check_missing_empty_if, subtreeList, List.map_cons,
      List.map_append, List.flatten_cons, List.flatten_append]
    rw [check_missing_map cs (idxPath bp i ++ ".components") 0,
      check_missing_map rest bp (i + 1)]
    simp [fieldIssues_map, nodeFieldWarnings, List.append_assoc]
termination_by comps _ _ => sizeList comps
decreasing_by
  all_goals simp only [sizeList]
  all_goals omega

/-- Claim C4: the field-completeness check is document-gated on the presence
of any GOST property anywhere in the tree; when off it emits nothing, and
when on every node contributes one warning per missing field and a distinct
"declared but empty" warning per empty field, up to two per node. -/
theorem gost_fields_gating (document : Document) :
    (check_gost_presence (document.components?.getD []) = true ↔
      ∃ c ∈ subtreeList (document.components?.getD []),
        (get_gost_prop c "attack_surface").isSome ∨
        (get_gost_prop c "security_function").isSome) ∧
    (check_gost_presence (document.components?.getD []) = false →
      _validate_gost_fields document = []) ∧
    (check_gost_presence (document.components?.getD []) = true →
      (_validate_gost_fields document).map (fun issue => (issue.level, issue.message)) =
        ((subtreeList (document.components?.getD [])).map nodeFieldWarnings).flatten) := by
  refine ⟨?_, ?_, ?_⟩
  · rw [check_gost_presence_any]
    simp [List.any_eq_true]
  · intro hoff
    rw [_validate_gost_fields, if_neg (by simp [hoff])]
  · intro hon
    rw [_validate_gost_fields, if_pos hon]
    exact check_missing_map _ _ _

/-- A GOST-free library component. -/
def plainLib : Component :=
  .mk (some "library") (some "L") none none none [] [] []

/-- A document with no GOST property anywhere. -/
def noGostDoc : Document :=
  ⟨some "CycloneDX", some "1.6", none, some [plainLib], none, false⟩

/-- A component declaring one GOST property. -/
def oneGostComp : Component :=
  .mk (some "library") (some "G") none none none
    [⟨some "cdx:gost:attack_surface", some "yes"⟩] [] []

/-- A document whose only GOST property sits on `oneGostComp`. -/
def oneGostDoc : Document :=
  ⟨some "CycloneDX", some "1.6", none, some [oneGostComp], none, false⟩

/-- Witness for C4: the GOST-free document yields no field warnings; the
one-property document activates the check. -/
theorem gost_fields_gating_witness :
    _validate_gost_fields noGostDoc = [] ∧
    (_validate_gost_fields oneGostDoc).map (fun issue => (issue.level, issue.message)) =
      ((subtreeList (oneGostDoc.components?.getD [])).map nodeFieldWarnings).flatten :=
  ⟨(gost_fields_gating noGostDoc).2.1
      (by simp [noGostDoc, plainLib, check_gost_presence, get_gost_prop, get_prop,
        get_prop_list, Component.properties]),
   (gost_fields_gating oneGostDoc).2.2
      (by simp [oneGostDoc, oneGostComp, check_gost_presence, get_gost_prop, get_prop,
        get_prop_list, Component.properties, GOST_NS])⟩

/-- Claim C10: a GOST field present with an empty-string value counts as
present for the completeness gate — it alone activates the check for the
whole tree — and that node receives the "declared but empty" warning for
that field. -/
theorem empty_gost_value_activates (document : Document) (comp : Component)
    (hmem : comp ∈ subtreeList (document.components?.getD [])) :
    (get_gost_prop comp "attack_surface" = some "" →
      check_gost_presence (document.components?.getD []) = true ∧
      ∃ issue ∈ _validate_gost_fields document,
        issue.level = Level.warning ∧
        issue.message = emptyFieldMsg "attack_surface" (comp.name?.getD "?")) ∧
    (get_gost_prop comp "security_function" = some "" →
      check_gost_presence (document.components?.getD []) = true ∧
      ∃ issue ∈ _validate_gost_fields document,
        issue.level = Level.warning ∧
        issue.message = emptyFieldMsg "security_function" (comp.name?.getD "?")) := by
  have hon : ((get_gost_prop comp "attack_surface").isSome ∨
      (get_gost_prop comp "security_function").isSome) →
      check_gost_presence (document.components?.getD []) = true := by
    intro hsome
    rw [check_gost_presence_any]
    exact List.any_eq_true.mpr ⟨comp, hmem, by rcases hsome with h | h <;> simp [h]⟩
  have hfind : ∀ pr : Level × String, pr ∈ nodeFieldWarnings comp →
      check_gost_presence (document.components?.getD []) = true →
      ∃ issue ∈ _validate_gost_fields document,
        issue.level = pr.1 ∧ issue.message = pr.2 := by
    intro pr hpr hon2
    have hmap :
        (_validate_gost_fields document).map (fun issue => (issue.level, issue.message)) =
          ((subtreeList (document.components?.getD [])).map nodeFieldWarnings).flatten := by
      rw [_validate_gost_fields, if_pos hon2]
      exact check_missing_map _ _ _
    have hflat : pr ∈
        ((subtreeList (document.components?.getD [])).map nodeFieldWarnings).flatten :=
      List.mem_flatten.mpr ⟨nodeFieldWarnings comp, List.mem_map.mpr ⟨comp, hmem, rfl⟩, hpr⟩
    rw [← hmap] at hflat
    rcases List.mem_map.mp hflat with ⟨issue, hissue, heq⟩
    exact ⟨issue, hissue, by rw [← heq], by rw [← heq]⟩
  constructor
  · intro hf
    have h1 := hon (Or.inl (by simp [hf]))
    refine ⟨h1, ?_⟩
    have hpair : (Level.warning, emptyFieldMsg "attack_surface" (comp.name?.getD "?")) ∈
        nodeFieldWarnings comp := by
      rw [nodeFieldWarnings]
      refine List.mem_append.mpr (Or.inl ?_)
      rw [fieldWarnPairs, hf]
      simp
    exact hfind _ hpair h1
  · intro hf
    have h1 := hon (Or.inr (by simp [hf]))
    refine ⟨h1, ?_⟩
    have hpair : (Level.warning, emptyFieldMsg "security_function" (comp.name?.getD "?")) ∈
        nodeFieldWarnings comp := by
      rw [nodeFieldWarnings]
      refine List.mem_append.mpr (Or.inr ?_)
      rw [fieldWarnPairs, hf]
      simp
    exact hfind _ hpair h1

/-- A component whose only GOST property is an empty-string
`attack_surface`. -/
def emptyGostComp : Component :=
  .mk (some "library") (some "E") none none none
    [⟨some "cdx:gost:attack_surface", some ""⟩] [] []

/-- A document whose only GOST property anywhere is the empty-string value
on `emptyGostComp`. -/
def emptyGostDoc : Document :=
  ⟨some "CycloneDX", some "1.6", none, some [emptyGostComp], none, false⟩

/-- Witness for C10: the empty-string `attack_surface` on `emptyGostComp`
activates the completeness check and draws the "declared but empty"
warning. -/
theorem empty_gost_value_activates_witness :
    check_gost_presence (emptyGostDoc.components?.getD []) = true ∧
    ∃ issue ∈ _validate_gost_fields emptyGostDoc,
      issue.level = Level.warning ∧
      issue.message = emptyFieldMsg "attack_surface" (emptyGostComp.name?.getD "?") :=
  (empty_gost_value_activates emptyGostDoc emptyGostComp
      (by simp [emptyGostDoc, emptyGostComp, subtreeList])).1
    (by simp [emptyGostComp, get_gost_prop, get_prop, get_prop_list,
      Component.properties, GOST_NS])

/-- Claim C6: `_is_safe_url` rejects every URL whose parsed scheme is not
exactly `https`, the loopback/unspecified hostnames, every hostname that
parses as an IP literal (public addresses included), and every
dotted-quad-shaped hostname; it accepts an `https` URL with an ordinary DNS
hostname. -/
theorem is_safe_url_policy (url : String) :
    ((urlScheme url ≠ "https" ∨
      urlHostname url ∈ ["localhost", "127.0.0.1", "0.0.0.0", "::1"] ∨
      isIpLiteral (urlHostname url) = true ∨
      isDottedQuad (urlHostname url) = true) →
      _is_safe_url url = false) ∧
    _is_safe_url "https://github.com/org/repo" = true ∧
    _is_safe_url "http://github.com/org/repo" = false ∧
    _is_safe_url "https://localhost/x" = false ∧
    _is_safe_url "https://127.0.0.1/x" = false ∧
    _is_safe_url "https://8.8.8.8/x" = false := by
  refine ⟨?_, by decide, by decide, by decide, by decide, by decide⟩
  intro h
  rw [_is_safe_url]
  split_ifs with h1 h2 h3 h4 h5
  · rfl
  · rfl
  · rfl
  · rfl
  · rfl
  · exfalso
    simp only [List.mem_cons, List.not_mem_nil, or_false] at h
    tauto

/-- Witness for C6 at the unspecified-address hostname. -/
theorem is_safe_url_policy_witness :
    _is_safe_url "https://0.0.0.0/x" = false :=
  (is_safe_url_policy "https://0.0.0.0/x").1 (by decide)

end Sbom
